import Mathlib

/-!
# Delta-based metadata store: shallow embedding

This development embeds the persistence layer of the OpenCode auto-loader
(`opencode-loader.js`): the snapshot document, the schema validator and
repair routine, the delta applier, the append-only delta journal, and the
compaction logic, together with the load pipeline used on startup.

JSON documents are modelled by the inductive type `JValue`; file contents
are modelled as already-parsed JSON values (`Option JValue`, `none` for a
missing file).  JavaScript-specific semantics that the source relies on —
truthiness, `typeof x` checks, the string/number
dispatch, property reads and writes on objects and arrays — are embedded
explicitly.  Machine time (`new Date().toISOString()`) is threaded as an
explicit `now : String` argument.
-/

/-- A JSON value.  Numbers are modelled as integers: every numeric literal
occurring in the store (schema version, session counts, deltas in the
claims) is integral. -/
inductive JValue where
  | null
  | bool (b : Bool)
  | num (n : Int)
  | str (s : String)
  | arr (elems : List JValue)
  | obj (fields : List (String × JValue))
deriving Repr

mutual

def jvalDecEq : (a b : JValue) → Decidable (a = b)
  | .null, .null => isTrue rfl
  | .bool x, .bool y =>
    match decEq x y with
    | isTrue h => isTrue (h ▸ rfl)
    | isFalse h => isFalse (fun hh => h (JValue.bool.inj hh))
  | .num x, .num y =>
    match decEq x y with
    | isTrue h => isTrue (h ▸ rfl)
    | isFalse h => isFalse (fun hh => h (JValue.num.inj hh))
  | .str x, .str y =>
    match decEq x y with
    | isTrue h => isTrue (h ▸ rfl)
    | isFalse h => isFalse (fun hh => h (JValue.str.inj hh))
  | .arr xs, .arr ys =>
    match jvalListDecEq xs ys with
    | isTrue h => isTrue (h ▸ rfl)
    | isFalse h => isFalse (fun hh => h (JValue.arr.inj hh))
  | .obj xs, .obj ys =>
    match jvalFieldsDecEq xs ys with
    | isTrue h => isTrue (h ▸ rfl)
    | isFalse h => isFalse (fun hh => h (JValue.obj.inj hh))
  | .null, .bool _ => isFalse (fun h => JValue.noConfusion h)
  | .null, .num _ => isFalse (fun h => JValue.noConfusion h)
  | .null, .str _ => isFalse (fun h => JValue.noConfusion h)
  | .null, .arr _ => isFalse (fun h => JValue.noConfusion h)
  | .null, .obj _ => isFalse (fun h => JValue.noConfusion h)
  | .bool _, .null => isFalse (fun h => JValue.noConfusion h)
  | .bool _, .num _ => isFalse (fun h => JValue.noConfusion h)
  | .bool _, .str _ => isFalse (fun h => JValue.noConfusion h)
  | .bool _, .arr _ => isFalse (fun h => JValue.noConfusion h)
  | .bool _, .obj _ => isFalse (fun h => JValue.noConfusion h)
  | .num _, .null => isFalse (fun h => JValue.noConfusion h)
  | .num _, .bool _ => isFalse (fun h => JValue.noConfusion h)
  | .num _, .str _ => isFalse (fun h => JValue.noConfusion h)
  | .num _, .arr _ => isFalse (fun h => JValue.noConfusion h)
  | .num _, .obj _ => isFalse (fun h => JValue.noConfusion h)
  | .str _, .null => isFalse (fun h => JValue.noConfusion h)
  | .str _, .bool _ => isFalse (fun h => JValue.noConfusion h)
  | .str _, .num _ => isFalse (fun h => JValue.noConfusion h)
  | .str _, .arr _ => isFalse (fun h => JValue.noConfusion h)
  | .str _, .obj _ => isFalse (fun h => JValue.noConfusion h)
  | .arr _, .null => isFalse (fun h => JValue.noConfusion h)
  | .arr _, .bool _ => isFalse (fun h => JValue.noConfusion h)
  | .arr _, .num _ => isFalse (fun h => JValue.noConfusion h)
  | .arr _, .str _ => isFalse (fun h => JValue.noConfusion h)
  | .arr _, .obj _ => isFalse (fun h => JValue.noConfusion h)
  | .obj _, .null => isFalse (fun h => JValue.noConfusion h)
  | .obj _, .bool _ => isFalse (fun h => JValue.noConfusion h)
  | .obj _, .num _ => isFalse (fun h => JValue.noConfusion h)
  | .obj _, .str _ => isFalse (fun h => JValue.noConfusion h)
  | .obj _, .arr _ => isFalse (fun h => JValue.noConfusion h)

def jvalListDecEq : (a b : List JValue) → Decidable (a = b)
  | [], [] => isTrue rfl
  | [], _ :: _ => isFalse (fun h => List.noConfusion h)
  | _ :: _, [] => isFalse (fun h => List.noConfusion h)
  | x :: xs, y :: ys =>
    match jvalDecEq x y with
    | isTrue h1 =>
      match jvalListDecEq xs ys with
      | isTrue h2 => isTrue (h1 ▸ h2 ▸ rfl)
      | isFalse h2 => isFalse (fun hh => h2 (List.cons.inj hh).2)
    | isFalse h1 => isFalse (fun hh => h1 (List.cons.inj hh).1)

def jvalFieldsDecEq : (a b : List (String × JValue)) → Decidable (a = b)
  | [], [] => isTrue rfl
  | [], _ :: _ => isFalse (fun h => List.noConfusion h)
  | _ :: _, [] => isFalse (fun h => List.noConfusion h)
  | (k, v) :: xs, (k', v') :: ys =>
    match decEq k k', jvalDecEq v v' with
    | isTrue hk, isTrue hv =>
      match jvalFieldsDecEq xs ys with
      | isTrue h2 => isTrue (by rw [hk, hv, h2])
      | isFalse h2 => isFalse (fun hh => h2 (List.cons.inj hh).2)
    | isFalse hk, _ =>
      isFalse (fun hh => hk (congrArg Prod.fst (List.cons.inj hh).1))
    | _, isFalse hv =>
      isFalse (fun hh => hv (congrArg Prod.snd (List.cons.inj hh).1))

end

instance : DecidableEq JValue := jvalDecEq

namespace JValue

/-- JavaScript truthiness of a value. -/
def jsTruthy : JValue → Bool
  | .null => false
  | .bool b => b
  | .num n => n != 0
  | .str s => s != ""
  | .arr _ => true
  | .obj _ => true

/-- `typeof v` equals `"object"` (true for `null`, arrays and plain objects). -/
def typeofObject : JValue → Bool
  | .null => true
  | .arr _ => true
  | .obj _ => true
  | _ => false

/-- A truthy object: the test `!x || typeof x !== "object"` (in source syntax) fails exactly
when this holds. -/
def isObjTruthy (v : JValue) : Bool :=
  v.typeofObject && v.jsTruthy

end JValue

/-- Look up a key in the field list of an object (first occurrence). -/
def jget : List (String × JValue) → String → Option JValue
  | [], _ => none
  | (k', v') :: rest, k => if k' = k then some v' else jget rest k

/-- Assign a key in the field list of an object: overwrite the first occurrence
in place, or append a new entry (JS property insertion order). -/
def jset : List (String × JValue) → String → JValue → List (String × JValue)
  | [], k, x => [(k, x)]
  | (k', v') :: rest, k, x =>
    if k' = k then (k', x) :: rest else (k', v') :: jset rest k x

/-- `delete obj[k]`: remove the entry for the key, if present. -/
def jdel : List (String × JValue) → String → List (String × JValue)
  | [], _ => []
  | (k', v') :: rest, k => if k' = k then rest else (k', v') :: jdel rest k

/-- Digit-string evaluation, by structural recursion (so that proofs can
evaluate it). -/
def digitsVal (ds : List Char) : Nat :=
  ds.foldl (fun n c => n * 10 + (c.toNat - 48)) 0

/-- A string property name that denotes a canonical array index: a
nonempty digit string without a leading zero (except `"0"` itself). -/
def toArrayIndex (k : String) : Option Nat :=
  match k.data with
  | [] => none
  | c :: cs =>
    if (c :: cs).all (fun ch => ch.isDigit) && (c != Char.ofNat 48 || cs.isEmpty)
    then some (digitsVal (c :: cs))
    else none

/-- The character-list worker for `split(".")`. -/
def splitDotAux : List Char → List Char → List String
  | [], acc => [String.mk acc.reverse]
  | c :: cs, acc =>
    if c = Char.ofNat 46 then String.mk acc.reverse :: splitDotAux cs []
    else splitDotAux cs (c :: acc)

/-- `field.split(".")`, by structural recursion over the character data
(matching the JS behavior for a one-character separator: an empty string
yields one empty segment, and adjacent separators yield empty segments). -/
def splitOnDot (s : String) : List String :=
  splitDotAux s.data []

/-- Set element `i` of a JS array; writing past the end fills the gap with
holes, which `JSON.stringify` renders as `null`. -/
def arrSet (xs : List JValue) (i : Nat) (x : JValue) : List JValue :=
  if i < xs.length then xs.set i x
  else xs ++ List.replicate (i - xs.length) JValue.null ++ [x]

mutual

/-- JS string coercion (`String(v)`), as used by the `+` operator. -/
def toStrJS : JValue → String
  | .null => "null"
  | .bool b => cond b "true" "false"
  | .num n => toString n
  | .str s => s
  | .arr xs => arrJoin xs
  | .obj _ => "[object Object]"

/-- `Array.prototype.toString`: comma-join of the elements, with `null`
elements rendered empty. -/
def arrJoin : List JValue → String
  | [] => ""
  | [.null] => ""
  | [x] => toStrJS x
  | .null :: xs => "," ++ arrJoin xs
  | x :: xs => toStrJS x ++ "," ++ arrJoin xs

end

/-- `ToPrimitive`: arrays and objects coerce to strings; primitives are
unchanged. -/
def toPrimJS : JValue → JValue
  | .arr xs => .str (arrJoin xs)
  | .obj _ => .str "[object Object]"
  | v => v

/-- Numeric coercion of a primitive for `+` (strings never reach the
numeric branch: a string operand selects concatenation). -/
def toNumJS : JValue → Int
  | .null => 0
  | .bool b => cond b 1 0
  | .num n => n
  | _ => 0

/-- The JS `+` operator: string concatenation if either side coerces to a
string, numeric addition otherwise. -/
def jsPlus (a b : JValue) : JValue :=
  match toPrimJS a, toPrimJS b with
  | .str s, y => .str (s ++ toStrJS y)
  | x, .str s => .str (toStrJS x ++ s)
  | x, y => .num (toNumJS x + toNumJS y)

/-- Property read `v[k]` on a JSON value: object field lookup, array
element lookup for canonical index keys, `undefined` (`none`) otherwise. -/
def jsGet (v : JValue) (k : String) : Option JValue :=
  match v with
  | .obj fs => jget fs k
  | .arr xs =>
    match toArrayIndex k with
    | some i => xs[i]?
    | none => none
  | _ => none

/-- Property write `v[k] = x`, restricted to what `JSON.stringify` can
observe: object assignment, array element assignment for index keys;
writes to non-index array properties and to primitives are invisible. -/
def jsSet (v : JValue) (k : String) (x : JValue) : JValue :=
  match v with
  | .obj fs => .obj (jset fs k x)
  | .arr xs =>
    match toArrayIndex k with
    | some i => .arr (arrSet xs i x)
    | none => .arr xs
  | v => v

/-- Property delete `delete v[k]`: removes an object key; deleting an
array element leaves a hole (`null` under `JSON.stringify`). -/
def jsDel (v : JValue) (k : String) : JValue :=
  match v with
  | .obj fs => .obj (jdel fs k)
  | .arr xs =>
    match toArrayIndex k with
    | some i => if i < xs.length then .arr (xs.set i .null) else .arr xs
    | none => .arr xs
  | v => v

/-! ## Snapshot defaults, schema validation and repair -/

/-- `SCHEMA_VERSION` constant from the source. -/
def SCHEMA_VERSION : Int := 3

/-- `DEFAULT_ESSENTIAL` constant from the source. -/
def DEFAULT_ESSENTIAL : JValue :=
  .obj [("lastSession", .str "Unknown"),
        ("stack", .str "Node.js + npm + Vite + TypeScript + TanStack"),
        ("projects", .arr []),
        ("sessionCount", .num 0)]

/-- `createDefaultMetadata()`: the default snapshot, stamped with the
current time. -/
def createDefaultMetadata (now : String) : JValue :=
  .obj [("version", .num SCHEMA_VERSION),
        ("lastUpdated", .str now),
        ("essential", DEFAULT_ESSENTIAL)]

/-- The list of violations collected by `validateMetadata` on a candidate
document (the checks performed after the initial `!data` guard). -/
def validationErrors (d : JValue) : List String :=
  (if d.typeofObject then [] else ["Metadata is not an object"])
  ++ (match jsGet d "version" with
      | some v => if v.jsTruthy && (match v with | .num _ => true | _ => false)
                  then [] else ["Missing or invalid version"]
      | none => ["Missing or invalid version"])
  ++ (match jsGet d "lastUpdated" with
      | some v => if v.jsTruthy && (match v with | .str _ => true | _ => false)
                  then [] else ["Missing or invalid lastUpdated"]
      | none => ["Missing or invalid lastUpdated"])
  ++ (match jsGet d "essential" with
      | some e =>
        if e.jsTruthy && e.typeofObject then
          (match jsGet e "lastSession" with
           | some v => if v.jsTruthy && (match v with | .str _ => true | _ => false)
                       then [] else ["Missing or invalid essential.lastSession"]
           | none => ["Missing or invalid essential.lastSession"])
          ++ (match jsGet e "stack" with
              | some v => if v.jsTruthy && (match v with | .str _ => true | _ => false)
                          then [] else ["Missing or invalid essential.stack"]
              | none => ["Missing or invalid essential.stack"])
          ++ (match jsGet e "projects" with
              | some (.arr _) => []
              | _ => ["Missing or invalid essential.projects"])
        else ["Missing or invalid essential section"]
      | none => ["Missing or invalid essential section"])

/-- Copy a candidate field if it is truthy, else keep the default
(`if (corruptedData.x) repaired.x = corruptedData.x`). -/
def truthyOr (o : Option JValue) (dflt : JValue) : JValue :=
  match o with
  | some v => if v.jsTruthy then v else dflt
  | none => dflt

/-- Salvage of `essential.projects`: kept only when `Array.isArray`
passes, else the default empty array. -/
def salvageProjects (o : Option JValue) : JValue :=
  match o with
  | some (.arr xs) => .arr xs
  | _ => .arr []

/-- Salvage of `essential.sessionCount`: kept only when the value is a
number, else the default `0`. -/
def salvageCount (o : Option JValue) : JValue :=
  match o with
  | some (.num n) => .num n
  | _ => .num 0

/-- Salvage of `sessionHistory`: an array is kept, capped at its last 10
entries (`slice(-10)`); anything else leaves the field absent. -/
def salvageHistory (o : Option JValue) : List (String × JValue) :=
  match o with
  | some (.arr xs) => [("sessionHistory", JValue.arr (xs.drop (xs.length - 10)))]
  | _ => []

/-- Salvage of the `essential` sub-document: fields are taken from a
truthy-object candidate field-by-field, else all defaults. -/
def salvageEssential (o : Option JValue) : List (String × JValue) :=
  match o with
  | some e =>
    if e.jsTruthy && e.typeofObject then
      [("lastSession", truthyOr (jsGet e "lastSession") (.str "Unknown")),
       ("stack", truthyOr (jsGet e "stack")
          (.str "Node.js + npm + Vite + TypeScript + TanStack")),
       ("projects", salvageProjects (jsGet e "projects")),
       ("sessionCount", salvageCount (jsGet e "sessionCount"))]
    else
      [("lastSession", JValue.str "Unknown"),
       ("stack", JValue.str "Node.js + npm + Vite + TypeScript + TanStack"),
       ("projects", JValue.arr []),
       ("sessionCount", JValue.num 0)]
  | none =>
    [("lastSession", JValue.str "Unknown"),
     ("stack", JValue.str "Node.js + npm + Vite + TypeScript + TanStack"),
     ("projects", JValue.arr []),
     ("sessionCount", JValue.num 0)]

/-- `repairMetadata(corruptedData)`: build a fresh default snapshot, then
salvage fields from the candidate.  `version`, `lastUpdated`,
`essential.lastSession` and `essential.stack` are copied on truthiness
alone; `essential.projects` requires `Array.isArray`,
`essential.sessionCount` requires a numeric `typeof` check; a `sessionHistory`
array is kept, capped at its last 10 entries. -/
def repairMetadata (c : JValue) (now : String) : JValue :=
  if c.jsTruthy && c.typeofObject then
    .obj ([("version", truthyOr (jsGet c "version") (.num SCHEMA_VERSION)),
           ("lastUpdated", truthyOr (jsGet c "lastUpdated") (.str now)),
           ("essential", .obj (salvageEssential (jsGet c "essential")))]
          ++ salvageHistory (jsGet c "sessionHistory"))
  else
    createDefaultMetadata now

/-- `validateMetadata(data)`: falsy input yields a fresh default; a
candidate with no violations is returned as-is; otherwise it is repaired. -/
def validateMetadata (data : Option JValue) (now : String) : JValue :=
  match data with
  | none => createDefaultMetadata now
  | some d =>
    if d.jsTruthy then
      if validationErrors d = [] then d else repairMetadata d now
    else createDefaultMetadata now

/-! ## Deltas, journal and the delta applier -/

/-- A delta record, as written by `saveDelta` (one JSON object per journal
line). -/
structure Delta where
  timestamp : String
  op : String
  field : String
  value : JValue
deriving DecidableEq, Repr

/-- One line of `context-deltas.jsonl`: either a well-formed delta record,
or a line on which `JSON.parse` throws. -/
inductive JournalLine where
  | bad
  | entry (d : Delta)
deriving DecidableEq, Repr

/-- The mutation performed at the final path segment, by `op`:
`set` overwrites; `add` appends to an array target, numerically adds to a
number target, and falls back to `set` otherwise; `remove` deletes the
key; any other op falls through the `switch` untouched. -/
def applyOp (v : JValue) (lastKey : String) (op : String) (val : JValue) : JValue :=
  match op with
  | "set" => jsSet v lastKey val
  | "add" =>
    match jsGet v lastKey with
    | some (.arr xs) => jsSet v lastKey (.arr (xs ++ [val]))
    | some (.num n) => jsSet v lastKey (jsPlus (.num n) val)
    | _ => jsSet v lastKey val
  | "remove" => jsDel v lastKey
  | _ => v

/-- The navigation loop of `applySingleDelta`: walk the intermediate path
segments, replacing a missing or non-object child with a fresh `{}`
before descending, then apply the op at the final segment.  Descending
through a non-index key of an array mutates a property that
`JSON.stringify` cannot observe, so the array is returned unchanged. -/
def navApply : JValue → List String → String → String → JValue → JValue
  | v, [], lastKey, op, val => applyOp v lastKey op val
  | v, k :: ks, lastKey, op, val =>
    match v with
    | .obj fs =>
      let child := match jget fs k with
        | some c => if c.isObjTruthy then c else .obj []
        | none => .obj []
      .obj (jset fs k (navApply child ks lastKey op val))
    | .arr xs =>
      match toArrayIndex k with
      | some i =>
        let child := match xs[i]? with
          | some c => if c.isObjTruthy then c else .obj []
          | none => .obj []
        .arr (arrSet xs i (navApply child ks lastKey op val))
      | none => .arr xs
    | v => v

/-- `applySingleDelta(base, delta)`: coerce a falsy or non-object base to a
fresh default snapshot, split the field path on `.`, then navigate.  The
loop starts at index 1 and stops before the final segment, so the first
segment is discarded and the final segment is resolved against whatever
object the intermediate segments reached (for a two-segment field, the
root itself). -/
def applySingleDelta (base : JValue) (d : Delta) (now : String) : JValue :=
  let b := if base.isObjTruthy then base else createDefaultMetadata now
  let segs := splitOnDot d.field
  navApply b ((segs.drop 1).dropLast) (segs.getLastD "") d.op d.value

/-- `applyDeltasToMetadata(baseMetadata)`: absent journal or empty content
returns the base untouched; a journal whose every line parses is folded
left-to-right over a deep copy of the base (a falsy base is replaced by a
fresh default first); a `JSON.parse` failure on any line is caught and
the original base is returned as passed in. -/
def applyDeltasToMetadata (base : Option JValue)
    (journal : Option (List JournalLine)) (now : String) : Option JValue :=
  match journal with
  | none => base
  | some lines =>
    if lines.isEmpty then base
    else if lines.any (· = .bad) then base
    else
      let start := match base with
        | some b => if b.jsTruthy then b else createDefaultMetadata now
        | none => createDefaultMetadata now
      some (lines.foldl
        (fun acc l => match l with
          | .bad => acc
          | .entry d => applySingleDelta acc d now) start)

/-! ## Store, compactor and service facade -/

/-- The durable state: the plain snapshot file `context-metadata.json`,
the compressed snapshot `context-metadata.json.gz`, and the journal
`context-deltas.jsonl` (`some []` is an existing file whose trimmed
content is empty).  `compactions` is a ghost counter recording how many
compactions ran to completion. -/
structure FSState where
  plain : Option JValue
  gz : Option JValue
  journal : Option (List JournalLine)
  compactions : Nat
deriving DecidableEq, Repr

/-- `loadMetadata()`: the compressed snapshot is preferred; otherwise the
plain file; otherwise nothing. -/
def loadMetadata (s : FSState) : Option JValue :=
  match s.gz with
  | some m => some m
  | none => s.plain

/-- The finalize step of `compactDeltas`: stamp `lastUpdated = now`, then
set `essential.sessionCount = (essential.sessionCount || 0) + 1` when
`essential` is a truthy object.  Writing a property of `null` throws a
`TypeError` (`none`); property writes on other primitives and on arrays
are silent no-ops as far as `JSON.stringify` can observe. -/
def finalizeMeta (v : JValue) (now : String) : Option JValue :=
  match v with
  | .null => none
  | .obj fs =>
    let fs1 := jset fs "lastUpdated" (.str now)
    match jget fs1 "essential" with
    | some (.obj es) =>
      some (.obj (jset fs1 "essential"
        (.obj (jset es "sessionCount"
          (jsPlus (truthyOr (jget es "sessionCount") (.num 0)) (.num 1))))))
    | _ => some (.obj fs1)
  | v => some v

/-- `compactDeltas()`: read the plain snapshot (default if absent), fold
the journal into it, finalize, write the result to the plain file only,
and delete the journal.  A throw during finalize (base folded to `null`)
is caught and leaves every file untouched.  The compressed snapshot is
never rewritten. -/
def compactDeltas (s : FSState) (now : String) : FSState :=
  let base := match s.plain with
    | some m => m
    | none => createDefaultMetadata now
  let folded := (applyDeltasToMetadata (some base) s.journal now).getD base
  match finalizeMeta folded now with
  | none => s
  | some m => { plain := some m, gz := s.gz, journal := none,
                compactions := s.compactions + 1 }

/-- `checkAndCompactDeltas()`: count the journal lines and compact once
50 or more are pending. -/
def checkAndCompactDeltas (s : FSState) (now : String) : FSState :=
  match s.journal with
  | none => s
  | some lines =>
    if lines.isEmpty then s
    else if 50 ≤ lines.length then compactDeltas s now
    else s

/-- `saveDelta(operation, field, value)`: append one delta record to the
journal (creating the file if needed), then run the compaction check. -/
def saveDelta (s : FSState) (op field : String) (value : JValue)
    (now : String) : FSState :=
  let line := JournalLine.entry ⟨now, op, field, value⟩
  let s1 := { s with journal := some ((s.journal.getD []) ++ [line]) }
  checkAndCompactDeltas s1 now

/-- The load pipeline of `initialize()`: `loadMetadata()`, then
`applyDeltasToMetadata`, then `validateMetadata`. -/
def loadPipeline (s : FSState) (now : String) : JValue :=
  validateMetadata (applyDeltasToMetadata (loadMetadata s) s.journal now) now

/-! ## Helper lemmas -/

theorem truthyOr_idem (o : Option JValue) (d : JValue) :
    truthyOr (some (truthyOr o d)) d = truthyOr o d := by
  rcases o with _ | v
  · simp [truthyOr]
  · simp only [truthyOr]
    by_cases h : v.jsTruthy = true <;> simp [h]

theorem truthyOr_self (d : JValue) : truthyOr (some d) d = d := by
  simp only [truthyOr]; split <;> rfl

theorem drop_last10_le (xs : List JValue) :
    (xs.drop (xs.length - 10)).length ≤ 10 := by
  simp [List.length_drop]; omega

theorem salvageProjects_shape (o : Option JValue) :
    ∃ xs, salvageProjects o = JValue.arr xs := by
  rcases o with _ | v
  · exact ⟨[], rfl⟩
  · cases v <;> exact ⟨_, rfl⟩

theorem salvageCount_shape (o : Option JValue) :
    ∃ n, salvageCount o = JValue.num n := by
  rcases o with _ | v
  · exact ⟨0, rfl⟩
  · cases v <;> exact ⟨_, rfl⟩

theorem salvageHistory_shape (o : Option JValue) :
    salvageHistory o = [] ∨ ∃ h : List JValue, h.length ≤ 10
      ∧ salvageHistory o = [("sessionHistory", JValue.arr h)] := by
  rcases o with _ | v
  · exact Or.inl rfl
  · cases v
    case arr xs => exact Or.inr ⟨_, drop_last10_le xs, rfl⟩
    all_goals exact Or.inl rfl

/-- Structure of a salvaged `essential` block: four fixed keys, a
truthy-salvage fixed point at `lastSession` and `stack`, an array at
`projects`, a number at `sessionCount`, with the string fields recording
where they were salvaged from. -/
theorem salvageEssential_shape (o : Option JValue) : ∃ ls st pv scv,
    salvageEssential o = [("lastSession", ls), ("stack", st),
      ("projects", pv), ("sessionCount", scv)]
    ∧ truthyOr (some ls) (.str "Unknown") = ls
    ∧ truthyOr (some st) (.str "Node.js + npm + Vite + TypeScript + TanStack") = st
    ∧ (∃ xs, pv = JValue.arr xs) ∧ (∃ n, scv = JValue.num n)
    ∧ (ls = .str "Unknown"
       ∨ ∃ e, o = some e ∧ ls = truthyOr (jsGet e "lastSession") (.str "Unknown"))
    ∧ (st = .str "Node.js + npm + Vite + TypeScript + TanStack"
       ∨ ∃ e, o = some e ∧ st = truthyOr (jsGet e "stack")
           (.str "Node.js + npm + Vite + TypeScript + TanStack")) := by
  rcases o with _ | e
  · exact ⟨_, _, _, _, rfl, by decide, by decide, ⟨[], rfl⟩, ⟨0, rfl⟩,
      Or.inl rfl, Or.inl rfl⟩
  · by_cases hg : (e.jsTruthy && e.typeofObject) = true
    · exact ⟨truthyOr (jsGet e "lastSession") (.str "Unknown"),
        truthyOr (jsGet e "stack") (.str "Node.js + npm + Vite + TypeScript + TanStack"),
        salvageProjects (jsGet e "projects"), salvageCount (jsGet e "sessionCount"),
        by simp [salvageEssential, hg], truthyOr_idem _ _, truthyOr_idem _ _,
        salvageProjects_shape _, salvageCount_shape _,
        Or.inr ⟨e, rfl, rfl⟩, Or.inr ⟨e, rfl, rfl⟩⟩
    · exact ⟨_, _, _, _, by simp [salvageEssential, hg], by decide, by decide,
        ⟨[], rfl⟩, ⟨0, rfl⟩, Or.inl rfl, Or.inl rfl⟩

/-- Salvaging a salvaged `essential` block changes nothing. -/
theorem salvageEssential_idem (o : Option JValue) :
    salvageEssential (some (.obj (salvageEssential o))) = salvageEssential o := by
  obtain ⟨ls, st, pv, scv, hEq, hls, hst, ⟨xs, rfl⟩, ⟨n, rfl⟩, _, _⟩ :=
    salvageEssential_shape o
  rw [hEq]
  simp [salvageEssential, JValue.jsTruthy, JValue.typeofObject, jsGet, jget,
    hls, hst, salvageProjects, salvageCount]

/-- When the salvage guard fails, the candidate has no readable
properties at all. -/
theorem jsGet_of_not_guard (x : JValue) (k : String)
    (hg : ¬ (x.jsTruthy && x.typeofObject) = true) : jsGet x k = none := by
  cases x <;> simp_all [jsGet, JValue.jsTruthy, JValue.typeofObject]

/-- C8 scaffold: repairing an already-repaired document is the identity. -/
theorem repair_fixes_repair (x : JValue) (now : String) :
    repairMetadata (repairMetadata x now) now = repairMetadata x now := by
  by_cases hg : (x.jsTruthy && x.typeofObject) = true
  · have hR : repairMetadata x now
        = .obj ([("version", truthyOr (jsGet x "version") (.num SCHEMA_VERSION)),
                 ("lastUpdated", truthyOr (jsGet x "lastUpdated") (.str now)),
                 ("essential", .obj (salvageEssential (jsGet x "essential")))]
                ++ salvageHistory (jsGet x "sessionHistory")) := by
      simp [repairMetadata, hg]
    rw [hR]
    rcases salvageHistory_shape (jsGet x "sessionHistory") with hh | ⟨h, hlen, hh⟩
    · rw [hh]
      simp [repairMetadata, JValue.jsTruthy, JValue.typeofObject, jsGet, jget,
        truthyOr_idem, salvageEssential_idem, salvageHistory]
    · rw [hh]
      have hz : h.length - 10 = 0 := Nat.sub_eq_zero_of_le hlen
      simp [repairMetadata, JValue.jsTruthy, JValue.typeofObject, jsGet, jget,
        truthyOr_idem, salvageEssential_idem, salvageHistory, hz]
  · have hR : repairMetadata x now = createDefaultMetadata now := by
      simp [repairMetadata, hg]
    rw [hR]
    simp [repairMetadata, createDefaultMetadata, DEFAULT_ESSENTIAL,
      JValue.jsTruthy, JValue.typeofObject, jsGet, jget, salvageEssential,
      salvageHistory, salvageProjects, salvageCount, truthyOr_self]

/-- Structural description of the output of `repairMetadata`. -/
theorem repair_shape (x : JValue) (now : String) : ∃ ls st pv scv hist,
    repairMetadata x now
      = .obj ([("version", truthyOr (jsGet x "version") (.num SCHEMA_VERSION)),
               ("lastUpdated", truthyOr (jsGet x "lastUpdated") (.str now)),
               ("essential", .obj [("lastSession", ls), ("stack", st),
                  ("projects", pv), ("sessionCount", scv)])] ++ hist)
    ∧ (∃ xs, pv = JValue.arr xs) ∧ (∃ n, scv = JValue.num n)
    ∧ (ls = .str "Unknown"
       ∨ ∃ e, jsGet x "essential" = some e
              ∧ ls = truthyOr (jsGet e "lastSession") (.str "Unknown"))
    ∧ (st = .str "Node.js + npm + Vite + TypeScript + TanStack"
       ∨ ∃ e, jsGet x "essential" = some e
              ∧ st = truthyOr (jsGet e "stack")
                  (.str "Node.js + npm + Vite + TypeScript + TanStack")) := by
  by_cases hg : (x.jsTruthy && x.typeofObject) = true
  · obtain ⟨ls, st, pv, scv, hEq, _, _, hpv, hscv, hlsP, hstP⟩ :=
      salvageEssential_shape (jsGet x "essential")
    refine ⟨ls, st, pv, scv, salvageHistory (jsGet x "sessionHistory"),
      by simp [repairMetadata, hg, hEq], hpv, hscv, ?_, ?_⟩
    · rcases hlsP with h | ⟨e, he, h⟩
      · exact Or.inl h
      · exact Or.inr ⟨e, he, h⟩
    · rcases hstP with h | ⟨e, he, h⟩
      · exact Or.inl h
      · exact Or.inr ⟨e, he, h⟩
  · refine ⟨.str "Unknown", .str "Node.js + npm + Vite + TypeScript + TanStack",
      .arr [], .num 0, [], ?_, ⟨[], rfl⟩, ⟨0, rfl⟩, Or.inl rfl, Or.inl rfl⟩
    rw [jsGet_of_not_guard x "version" hg, jsGet_of_not_guard x "lastUpdated" hg]
    simp [repairMetadata, hg, createDefaultMetadata, DEFAULT_ESSENTIAL, truthyOr]

/-- Sufficient conditions for a four-keyed snapshot object to pass the
validator with no violations. -/
theorem validationErrors_canonical (ver lu ls st pv scv : JValue)
    (hist : List (String × JValue))
    (hver : ∃ n : Int, ver = .num n ∧ n ≠ 0)
    (hlu : ∃ s, lu = .str s ∧ s ≠ "")
    (hls : ∃ s, ls = .str s ∧ s ≠ "")
    (hst : ∃ s, st = .str s ∧ s ≠ "")
    (hpv : ∃ xs, pv = JValue.arr xs) :
    validationErrors (.obj ([("version", ver), ("lastUpdated", lu),
      ("essential", .obj [("lastSession", ls), ("stack", st),
        ("projects", pv), ("sessionCount", scv)])] ++ hist)) = [] := by
  obtain ⟨n, rfl, hn⟩ := hver
  obtain ⟨s1, rfl, h1⟩ := hlu
  obtain ⟨s2, rfl, h2⟩ := hls
  obtain ⟨s3, rfl, h3⟩ := hst
  obtain ⟨xs, rfl⟩ := hpv
  simp [validationErrors, jsGet, jget, JValue.jsTruthy, JValue.typeofObject,
    h1, h2, h3, hn]

/-- Repair output passes the validator provided every truthy field it
salvages from the candidate already has the schema type. -/
theorem repair_valid_of_salvageable (c : JValue) (now : String) (h0 : now ≠ "")
    (h1 : ∀ v, jsGet c "version" = some v → v.jsTruthy = true → ∃ n : Int, v = .num n)
    (h2 : ∀ v, jsGet c "lastUpdated" = some v → v.jsTruthy = true → ∃ s, v = .str s)
    (h3 : ∀ e v, jsGet c "essential" = some e → jsGet e "lastSession" = some v →
      v.jsTruthy = true → ∃ s, v = .str s)
    (h4 : ∀ e v, jsGet c "essential" = some e → jsGet e "stack" = some v →
      v.jsTruthy = true → ∃ s, v = .str s) :
    validationErrors (repairMetadata c now) = [] := by
  obtain ⟨ls, st, pv, scv, hist, hEq, hpv, hscv, hlsP, hstP⟩ := repair_shape c now
  rw [hEq]
  apply validationErrors_canonical
  · rcases hq : jsGet c "version" with _ | v
    · exact ⟨3, rfl, by decide⟩
    · by_cases ht : v.jsTruthy = true
      · obtain ⟨n, rfl⟩ := h1 v hq ht
        exact ⟨n, by simp [truthyOr, ht], by simpa [JValue.jsTruthy, bne_iff_ne] using ht⟩
      · exact ⟨3, by simp [truthyOr, ht, SCHEMA_VERSION], by decide⟩
  · rcases hq : jsGet c "lastUpdated" with _ | v
    · exact ⟨now, by simp [truthyOr], h0⟩
    · by_cases ht : v.jsTruthy = true
      · obtain ⟨s, rfl⟩ := h2 v hq ht
        exact ⟨s, by simp [truthyOr, ht], by simpa [JValue.jsTruthy, bne_iff_ne] using ht⟩
      · exact ⟨now, by simp [truthyOr, ht], h0⟩
  · rcases hlsP with rfl | ⟨e, he, rfl⟩
    · exact ⟨"Unknown", rfl, by decide⟩
    · rcases hq : jsGet e "lastSession" with _ | v
      · exact ⟨"Unknown", by simp [truthyOr], by decide⟩
      · by_cases ht : v.jsTruthy = true
        · obtain ⟨s, rfl⟩ := h3 e v he hq ht
          exact ⟨s, by simp [truthyOr, ht], by simpa [JValue.jsTruthy, bne_iff_ne] using ht⟩
        · exact ⟨"Unknown", by simp [truthyOr, ht], by decide⟩
  · rcases hstP with rfl | ⟨e, he, rfl⟩
    · exact ⟨"Node.js + npm + Vite + TypeScript + TanStack", rfl, by decide⟩
    · rcases hq : jsGet e "stack" with _ | v
      · exact ⟨"Node.js + npm + Vite + TypeScript + TanStack", by simp [truthyOr], by decide⟩
      · by_cases ht : v.jsTruthy = true
        · obtain ⟨s, rfl⟩ := h4 e v he hq ht
          exact ⟨s, by simp [truthyOr, ht], by simpa [JValue.jsTruthy, bne_iff_ne] using ht⟩
        · exact ⟨"Node.js + npm + Vite + TypeScript + TanStack",
            by simp [truthyOr, ht], by decide⟩
  · exact hpv

theorem jget_jset_self (fs : List (String × JValue)) (k : String) (x : JValue) :
    jget (jset fs k x) k = some x := by
  induction fs with
  | nil => simp [jget, jset]
  | cons p rest ih =>
    rcases p with ⟨k0, v0⟩
    by_cases h : k0 = k
    · simp [jget, jset, h]
    · simp [jget, jset, h, ih]

theorem jget_jset_ne (fs : List (String × JValue)) (k k' : String) (x : JValue)
    (h : k' ≠ k) : jget (jset fs k x) k' = jget fs k' := by
  have h2 : ¬ k = k' := fun hh => h hh.symm
  induction fs with
  | nil => simp [jget, jset, h2]
  | cons p rest ih =>
    rcases p with ⟨k0, v0⟩
    by_cases h0 : k0 = k
    · subst h0
      simp [jget, jset, h2]
    · by_cases h1 : k0 = k'
      · simp [jget, jset, h0, h1, h]
      · simp [jget, jset, h0, h1, ih]

/-- A document with no validation errors is an object carrying a truthy
numeric `version`, a nonempty-string `lastUpdated`, and an `essential`
object with nonempty-string `lastSession` and `stack` and an array
`projects`. -/
theorem validationErrors_nil_elim (v : JValue) (hv : validationErrors v = []) :
    ∃ fs, v = .obj fs
    ∧ (∃ n : Int, jget fs "version" = some (.num n) ∧ n ≠ 0)
    ∧ (∃ s, jget fs "lastUpdated" = some (.str s) ∧ s ≠ "")
    ∧ (∃ es, jget fs "essential" = some (.obj es)
        ∧ (∃ s, jget es "lastSession" = some (.str s) ∧ s ≠ "")
        ∧ (∃ s, jget es "stack" = some (.str s) ∧ s ≠ "")
        ∧ (∃ xs, jget es "projects" = some (.arr xs))) := by
  cases v with
  | obj fs =>
    refine ⟨fs, rfl, ?_⟩
    simp only [validationErrors, jsGet, JValue.typeofObject, if_true,
      List.nil_append, List.append_eq_nil] at hv
    obtain ⟨⟨hv1, hv2⟩, hv3⟩ := hv
    have H1 : ∃ n : Int, jget fs "version" = some (.num n) ∧ n ≠ 0 := by
      clear hv2 hv3
      rcases hV : jget fs "version" with _ | w
      · rw [hV] at hv1; simp at hv1
      · rw [hV] at hv1
        cases w <;> simp_all [JValue.jsTruthy]
    have H2 : ∃ s, jget fs "lastUpdated" = some (.str s) ∧ s ≠ "" := by
      clear hv1 hv3
      rcases hV : jget fs "lastUpdated" with _ | w
      · rw [hV] at hv2; simp at hv2
      · rw [hV] at hv2
        cases w <;> simp_all [JValue.jsTruthy]
    refine ⟨H1, H2, ?_⟩
    clear hv1 hv2 H1 H2
    rcases hV : jget fs "essential" with _ | w
    · rw [hV] at hv3; simp at hv3
    · rw [hV] at hv3
      cases w with
      | obj es =>
        simp only [JValue.jsTruthy, JValue.typeofObject, Bool.and_self, if_true,
          jsGet, List.append_eq_nil] at hv3
        obtain ⟨⟨hw1, hw2⟩, hw3⟩ := hv3
        have G1 : ∃ s, jget es "lastSession" = some (.str s) ∧ s ≠ "" := by
          clear hw2 hw3
          rcases hL : jget es "lastSession" with _ | u
          · rw [hL] at hw1; simp at hw1
          · rw [hL] at hw1
            cases u <;> simp_all [JValue.jsTruthy]
        have G2 : ∃ s, jget es "stack" = some (.str s) ∧ s ≠ "" := by
          clear hw1 hw3
          rcases hL : jget es "stack" with _ | u
          · rw [hL] at hw2; simp at hw2
          · rw [hL] at hw2
            cases u <;> simp_all [JValue.jsTruthy]
        have G3 : ∃ xs, jget es "projects" = some (.arr xs) := by
          clear hw1 hw2
          rcases hL : jget es "projects" with _ | u
          · rw [hL] at hw3; simp at hw3
          · rw [hL] at hw3
            cases u <;> simp_all
        exact ⟨es, rfl, G1, G2, G3⟩
      | null => simp [JValue.jsTruthy] at hv3
      | bool b => simp [JValue.jsTruthy, JValue.typeofObject] at hv3
      | num n => simp [JValue.jsTruthy, JValue.typeofObject] at hv3
      | str s => simp [JValue.jsTruthy, JValue.typeofObject] at hv3
      | arr xs =>
        simp [jsGet, JValue.jsTruthy, JValue.typeofObject,
          show toArrayIndex "lastSession" = none by decide] at hv3
  | null => simp [validationErrors, jsGet] at hv
  | bool b => simp [validationErrors, JValue.typeofObject] at hv
  | num n => simp [validationErrors, JValue.typeofObject] at hv
  | str s => simp [validationErrors, JValue.typeofObject] at hv
  | arr xs =>
    simp [validationErrors, jsGet,
      show toArrayIndex "version" = none by decide] at hv

/-- Converse direction: the stated field facts make the validator pass. -/
theorem validationErrors_nil_intro (fs : List (String × JValue))
    (h1 : ∃ n : Int, jget fs "version" = some (.num n) ∧ n ≠ 0)
    (h2 : ∃ s, jget fs "lastUpdated" = some (.str s) ∧ s ≠ "")
    (h3 : ∃ es, jget fs "essential" = some (.obj es)
        ∧ (∃ s, jget es "lastSession" = some (.str s) ∧ s ≠ "")
        ∧ (∃ s, jget es "stack" = some (.str s) ∧ s ≠ "")
        ∧ (∃ xs, jget es "projects" = some (.arr xs))) :
    validationErrors (.obj fs) = [] := by
  obtain ⟨n, hn, hn0⟩ := h1
  obtain ⟨s1, hs1, hs10⟩ := h2
  obtain ⟨es, hes, ⟨s2, hs2, hs20⟩, ⟨s3, hs3, hs30⟩, ⟨xs, hxs⟩⟩ := h3
  simp [validationErrors, jsGet, JValue.typeofObject, JValue.jsTruthy,
    hn, hs1, hes, hs2, hs3, hxs, hn0, hs10, hs20, hs30]

/-- The finalize step of compaction maps a validator-clean snapshot to a
validator-clean snapshot (it only restamps `lastUpdated` and bumps the
unchecked `essential.sessionCount`). -/
theorem finalizeMeta_valid (v : JValue) (now : String) (hnow : now ≠ "")
    (hv : validationErrors v = []) :
    ∃ m, finalizeMeta v now = some m ∧ validationErrors m = []
      ∧ m.jsTruthy = true := by
  obtain ⟨fs, rfl, ⟨n, hVn, hn⟩, ⟨s1, hLu, _⟩, ⟨es, hEs,
    ⟨s2, hLs, h2⟩, ⟨s3, hSt, h3⟩, ⟨xs, hPr⟩⟩⟩ := validationErrors_nil_elim _ hv
  have hE1 : jget (jset fs "lastUpdated" (.str now)) "essential" = some (.obj es) := by
    rw [jget_jset_ne _ _ _ _ (by decide)]
    exact hEs
  have hFin : finalizeMeta (.obj fs) now
      = some (.obj (jset (jset fs "lastUpdated" (.str now)) "essential"
          (.obj (jset es "sessionCount"
            (jsPlus (truthyOr (jget es "sessionCount") (.num 0)) (.num 1)))))) := by
    simp [finalizeMeta, hE1]
  refine ⟨_, hFin, ?_, rfl⟩
  apply validationErrors_nil_intro
  · refine ⟨n, ?_, hn⟩
    rw [jget_jset_ne _ _ _ _ (by decide), jget_jset_ne _ _ _ _ (by decide)]
    exact hVn
  · refine ⟨now, ?_, hnow⟩
    rw [jget_jset_ne _ _ _ _ (by decide), jget_jset_self]
  · refine ⟨_, jget_jset_self _ _ _, ⟨s2, ?_, h2⟩, ⟨s3, ?_, h3⟩, ⟨xs, ?_⟩⟩
    · rw [jget_jset_ne _ _ _ _ (by decide)]; exact hLs
    · rw [jget_jset_ne _ _ _ _ (by decide)]; exact hSt
    · rw [jget_jset_ne _ _ _ _ (by decide)]; exact hPr

/-- Folding the journal into a defaulted base equals defaulting the folded
journal: the compactor and the load pipeline fold the same snapshot. -/
theorem applyDeltas_defaulted (o : Option JValue)
    (j : Option (List JournalLine)) (now : String) :
    applyDeltasToMetadata (some (o.getD (createDefaultMetadata now))) j now
      = some ((applyDeltasToMetadata o j now).getD (createDefaultMetadata now)) := by
  rcases j with _ | lines
  · rcases o with _ | b <;> rfl
  · by_cases he : lines.isEmpty
    · rcases o with _ | b <;> simp [applyDeltasToMetadata, he]
    · by_cases hb : lines.any (· = .bad)
      · rcases o with _ | b <;> simp [applyDeltasToMetadata, he, hb]
      · rcases o with _ | b
        · simp [applyDeltasToMetadata, he, hb, JValue.jsTruthy]
        · simp [applyDeltasToMetadata, he, hb]

/-- `compactDeltas` in terms of the folded plain snapshot. -/
theorem compactDeltas_spec (s : FSState) (now : String) :
    compactDeltas s now =
      match finalizeMeta ((applyDeltasToMetadata s.plain s.journal now).getD
          (createDefaultMetadata now)) now with
      | none => s
      | some m => { plain := some m, gz := s.gz, journal := none,
                    compactions := s.compactions + 1 } := by
  have hbase : (match s.plain with
      | some m => m
      | none => createDefaultMetadata now) = s.plain.getD (createDefaultMetadata now) := by
    rcases s.plain <;> rfl
  unfold compactDeltas
  rw [hbase]
  simp only [applyDeltas_defaulted, Option.getD_some]

/-- With no compressed snapshot and a validator-clean fold, the load
pipeline returns exactly the folded (defaulted) plain snapshot. -/
theorem loadPipeline_of_valid (s : FSState) (now : String) (hgz : s.gz = none)
    (hv : validationErrors ((applyDeltasToMetadata s.plain s.journal now).getD
        (createDefaultMetadata now)) = []) :
    loadPipeline s now = (applyDeltasToMetadata s.plain s.journal now).getD
      (createDefaultMetadata now) := by
  unfold loadPipeline loadMetadata
  rw [hgz]
  rcases hX : applyDeltasToMetadata s.plain s.journal now with _ | b
  · simp [validateMetadata]
  · rw [hX] at hv
    simp only [Option.getD_some] at hv ⊢
    have hb : b.jsTruthy = true := by
      obtain ⟨fs, rfl, _⟩ := validationErrors_nil_elim b hv
      rfl
    simp [validateMetadata, hb, hv]

/-- Compact-then-load equals finalize of load: C1 scaffold. -/
theorem compact_then_load (s : FSState) (now : String) (hgz : s.gz = none)
    (hnow : now ≠ "")
    (hv : validationErrors ((applyDeltasToMetadata s.plain s.journal now).getD
        (createDefaultMetadata now)) = []) :
    finalizeMeta (loadPipeline s now) now
      = some (loadPipeline (compactDeltas s now) now) := by
  obtain ⟨m, hFin, hmv, hmt⟩ := finalizeMeta_valid _ now hnow hv
  rw [loadPipeline_of_valid s now hgz hv, hFin]
  have hc : compactDeltas s now
      = { plain := some m, gz := s.gz, journal := none,
          compactions := s.compactions + 1 } := by
    rw [compactDeltas_spec, hFin]
  rw [hc]
  simp [loadPipeline, loadMetadata, hgz, applyDeltasToMetadata,
    validateMetadata, hmv, hmt]

/-- The snapshot persisted by a successful compaction of a
validator-clean fold is validator-clean: C2 scaffold. -/
theorem compact_persist_valid (s : FSState) (now : String) (hnow : now ≠ "")
    (hv : validationErrors ((applyDeltasToMetadata s.plain s.journal now).getD
        (createDefaultMetadata now)) = []) :
    ∃ m, (compactDeltas s now).plain = some m ∧ validationErrors m = [] := by
  obtain ⟨m, hFin, hmv, _⟩ := finalizeMeta_valid _ now hnow hv
  refine ⟨m, ?_, hmv⟩
  rw [compactDeltas_spec, hFin]

/-- A journal with a malformed line folds to the base exactly as passed:
C3/C10 scaffold. -/
theorem applyDeltas_bad_line (b : Option JValue) (lines : List JournalLine)
    (now : String) (h : JournalLine.bad ∈ lines) :
    applyDeltasToMetadata b (some lines) now = b := by
  have h1 : lines.isEmpty = false := by
    cases lines
    · cases h
    · rfl
  have h2 : lines.any (· = .bad) = true := List.any_eq_true.mpr ⟨.bad, h, by simp⟩
  simp [applyDeltasToMetadata, h1, h2]

/-- An unrecognized op with a short field path leaves the snapshot
untouched: C7 scaffold. -/
theorem applySingleDelta_unrecognized (base : JValue) (ts op field : String)
    (val : JValue) (now : String) (hb : base.isObjTruthy = true)
    (hop : op ≠ "set" ∧ op ≠ "add" ∧ op ≠ "remove")
    (hf : (splitOnDot field).length ≤ 2) :
    applySingleDelta base ⟨ts, op, field, val⟩ now = base := by
  have hm : ((splitOnDot field).drop 1).dropLast = [] := by
    rcases hs : splitOnDot field with _ | ⟨a, _ | ⟨c, _ | ⟨e, rest⟩⟩⟩
    · rfl
    · rfl
    · rfl
    · rw [hs] at hf
      simp at hf
  unfold applySingleDelta
  simp only [hm, hb, if_true, navApply]
  unfold applyOp
  split <;> simp_all

theorem jsSet_objTruthy (v : JValue) (k : String) (x : JValue)
    (h : v.isObjTruthy = true) : (jsSet v k x).isObjTruthy = true := by
  cases v <;> simp_all [jsSet, JValue.isObjTruthy, JValue.jsTruthy, JValue.typeofObject]
  rcases toArrayIndex k with _ | i <;> simp

theorem jsDel_objTruthy (v : JValue) (k : String) (h : v.isObjTruthy = true) :
    (jsDel v k).isObjTruthy = true := by
  cases v with
  | arr xs =>
    rcases hq : toArrayIndex k with _ | i
    · simp [jsDel, hq, JValue.isObjTruthy, JValue.jsTruthy, JValue.typeofObject]
    · simp only [jsDel, hq]
      split <;> simp [JValue.isObjTruthy, JValue.jsTruthy, JValue.typeofObject]
  | obj fs => simp [jsDel, JValue.isObjTruthy, JValue.jsTruthy, JValue.typeofObject]
  | null => simp [JValue.isObjTruthy, JValue.jsTruthy] at h
  | bool b => simp [JValue.isObjTruthy, JValue.typeofObject] at h
  | num n => simp [JValue.isObjTruthy, JValue.typeofObject] at h
  | str s => simp [JValue.isObjTruthy, JValue.typeofObject] at h

theorem applyOp_objTruthy (v : JValue) (lastKey op : String) (val : JValue)
    (h : v.isObjTruthy = true) : (applyOp v lastKey op val).isObjTruthy = true := by
  unfold applyOp
  split
  · exact jsSet_objTruthy _ _ _ h
  · split <;> exact jsSet_objTruthy _ _ _ h
  · exact jsDel_objTruthy _ _ h
  · exact h

theorem navApply_objTruthy (mids : List String) (v : JValue) (lastKey op : String)
    (val : JValue) (h : v.isObjTruthy = true) :
    (navApply v mids lastKey op val).isObjTruthy = true := by
  cases mids with
  | nil => exact applyOp_objTruthy _ _ _ _ h
  | cons k ks =>
    cases v <;> simp_all [navApply, JValue.isObjTruthy, JValue.jsTruthy, JValue.typeofObject]
    rcases toArrayIndex k with _ | i <;> simp

/-- The delta applier always returns a truthy object or array. -/
theorem applySingleDelta_objTruthy (b : JValue) (d : Delta) (now : String) :
    (applySingleDelta b d now).isObjTruthy = true := by
  unfold applySingleDelta
  by_cases hb : b.isObjTruthy = true
  · simp only [hb, if_true]
    exact navApply_objTruthy _ _ _ _ _ hb
  · simp only [hb, if_false]
    exact navApply_objTruthy _ _ _ _ _ rfl

/-- A fold of a nonempty, fully-parsed journal yields a truthy object. -/
theorem foldl_good_objTruthy (lines : List JournalLine) (start : JValue)
    (now : String) (hne : lines ≠ [])
    (hnb : lines.any (· = .bad) = false) :
    ((lines.foldl (fun acc l => match l with
      | .bad => acc
      | .entry d => applySingleDelta acc d now) start)).isObjTruthy = true := by
  induction lines generalizing start with
  | nil => cases hne rfl
  | cons x rest ih =>
    rcases x with _ | d
    · simp at hnb
    · by_cases hr : rest = []
      · subst hr
        exact applySingleDelta_objTruthy _ _ _
      · have hnb2 : rest.any (· = .bad) = false := by
          cases ha : rest.any (· = .bad)
          · rfl
          · rw [List.any_cons, ha, Bool.or_true] at hnb
            cases hnb
        exact ih _ hr hnb2

/-- Below the threshold, an append leaves everything but the journal
untouched and does not compact. -/
theorem saveDelta_no_compact (s : FSState) (op field : String) (value : JValue)
    (now : String) (h : (s.journal.getD []).length + 1 < 50) :
    saveDelta s op field value now
      = { s with journal := some ((s.journal.getD [])
          ++ [JournalLine.entry ⟨now, op, field, value⟩]) } := by
  unfold saveDelta checkAndCompactDeltas
  simp only []
  have h1 : ((s.journal.getD []) ++ [JournalLine.entry ⟨now, op, field, value⟩]).isEmpty
      = false := by
    simp
  have h2 : ¬ (49 ≤ (s.journal.getD []).length) := by omega
  simp [h1, h2]

/-- At the threshold, the append is immediately followed by compaction of
the appended journal. -/
theorem saveDelta_compacts (s : FSState) (op field : String) (value : JValue)
    (now : String) (h : 49 ≤ (s.journal.getD []).length) :
    saveDelta s op field value now
      = compactDeltas { s with journal := some ((s.journal.getD [])
          ++ [JournalLine.entry ⟨now, op, field, value⟩]) } now := by
  unfold saveDelta checkAndCompactDeltas
  simp only []
  have h1 : ((s.journal.getD []) ++ [JournalLine.entry ⟨now, op, field, value⟩]).isEmpty
      = false := by
    simp
  simp [h1, h]

theorem finalizeMeta_isSome (v : JValue) (now : String)
    (h : v.isObjTruthy = true) : ∃ m, finalizeMeta v now = some m := by
  cases v with
  | obj fs =>
    simp only [finalizeMeta]
    split
    · exact ⟨_, rfl⟩
    · exact ⟨_, rfl⟩
  | arr xs => exact ⟨_, rfl⟩
  | null => simp [JValue.isObjTruthy, JValue.jsTruthy] at h
  | bool b => exact ⟨_, rfl⟩
  | num n => exact ⟨_, rfl⟩
  | str s => exact ⟨_, rfl⟩

/-- A compaction over a nonempty fully-parsed journal completes: the
journal is deleted, the counter advances, and a snapshot is written. -/
theorem compactDeltas_completes (s : FSState) (now : String)
    (lines : List JournalLine) (hj : s.journal = some lines) (hne : lines ≠ [])
    (hnb : lines.any (· = .bad) = false) :
    ∃ m, compactDeltas s now = FSState.mk (some m) s.gz none (s.compactions + 1) := by
  have he : lines.isEmpty = false := by
    cases lines
    · cases hne rfl
    · rfl
  have hX : ∃ start : JValue,
      (applyDeltasToMetadata s.plain (some lines) now).getD (createDefaultMetadata now)
        = lines.foldl (fun acc l => match l with
            | .bad => acc
            | .entry d => applySingleDelta acc d now) start := by
    rcases s.plain with _ | b
    · exact ⟨createDefaultMetadata now, by simp [applyDeltasToMetadata, he, hnb]⟩
    · exact ⟨if b.jsTruthy then b else createDefaultMetadata now,
        by simp [applyDeltasToMetadata, he, hnb]⟩
  obtain ⟨start, hX⟩ := hX
  obtain ⟨m, hm⟩ := finalizeMeta_isSome _ now (foldl_good_objTruthy lines start now hne hnb)
  rw [compactDeltas_spec, hj, hX, hm]
  exact ⟨m, rfl⟩

/-- Repeated sub-threshold updates only append to the journal. -/
theorem foldl_saveDelta_below (ds : List (String × String × JValue))
    (s : FSState) (ls : List JournalLine) (now : String)
    (h : s.journal = some ls) (hlen : ls.length + ds.length ≤ 49) :
    ds.foldl (fun st x => saveDelta st x.1 x.2.1 x.2.2 now) s
      = { s with journal := some (ls
          ++ ds.map (fun x => JournalLine.entry ⟨now, x.1, x.2.1, x.2.2⟩)) } := by
  induction ds generalizing s ls with
  | nil =>
    simp only [List.foldl_nil, List.map_nil, List.append_nil]
    rcases s with ⟨p, g, j, c⟩
    simp_all
  | cons x rest ih =>
    have hstep : saveDelta s x.1 x.2.1 x.2.2 now
        = { s with journal := some (ls ++ [JournalLine.entry ⟨now, x.1, x.2.1, x.2.2⟩]) } := by
      have hlt : (s.journal.getD []).length + 1 < 50 := by
        rw [h]
        simp only [Option.getD_some]
        simp at hlen
        omega
      rw [saveDelta_no_compact _ _ _ _ _ hlt, h]
      rfl
    rw [List.foldl_cons, hstep,
      ih _ (ls ++ [JournalLine.entry ⟨now, x.1, x.2.1, x.2.2⟩]) rfl
        (by simp at hlen ⊢; omega)]
    simp

/-- C9 scaffold: from an empty journal, 49 updates append without
compacting, and the 50th triggers a compaction that completes before the
call returns. -/
theorem threshold_behavior (s : FSState) (now : String)
    (ds : List (String × String × JValue)) (u : String × String × JValue)
    (h0 : s.journal = none) (h49 : ds.length = 49) :
    (ds.foldl (fun st x => saveDelta st x.1 x.2.1 x.2.2 now) s).compactions
        = s.compactions
    ∧ (ds.foldl (fun st x => saveDelta st x.1 x.2.1 x.2.2 now) s).journal
        = some (ds.map (fun x => JournalLine.entry ⟨now, x.1, x.2.1, x.2.2⟩))
    ∧ (saveDelta (ds.foldl (fun st x => saveDelta st x.1 x.2.1 x.2.2 now) s)
        u.1 u.2.1 u.2.2 now).compactions = s.compactions + 1
    ∧ (saveDelta (ds.foldl (fun st x => saveDelta st x.1 x.2.1 x.2.2 now) s)
        u.1 u.2.1 u.2.2 now).journal = none := by
  rcases ds with _ | ⟨d0, rest⟩
  · simp at h49
  have hlen : rest.length = 48 := by simpa using h49
  have hfirst : saveDelta s d0.1 d0.2.1 d0.2.2 now
      = { s with journal := some [JournalLine.entry ⟨now, d0.1, d0.2.1, d0.2.2⟩] } := by
    have hlt : (s.journal.getD []).length + 1 < 50 := by rw [h0]; simp
    rw [saveDelta_no_compact _ _ _ _ _ hlt, h0]
    rfl
  have hfold : (d0 :: rest).foldl (fun st x => saveDelta st x.1 x.2.1 x.2.2 now) s
      = { s with journal := some ([JournalLine.entry ⟨now, d0.1, d0.2.1, d0.2.2⟩]
          ++ rest.map (fun x => JournalLine.entry ⟨now, x.1, x.2.1, x.2.2⟩)) } := by
    rw [List.foldl_cons, hfirst,
      foldl_saveDelta_below rest _ [JournalLine.entry ⟨now, d0.1, d0.2.1, d0.2.2⟩] now rfl
        (by simp [hlen])]
  have hlines : ([JournalLine.entry ⟨now, d0.1, d0.2.1, d0.2.2⟩]
      ++ rest.map (fun x => JournalLine.entry ⟨now, x.1, x.2.1, x.2.2⟩)).length = 49 := by
    simp [hlen]
  refine ⟨by rw [hfold], by rw [hfold]; simp, ?_⟩
  have h50 : saveDelta ((d0 :: rest).foldl (fun st x => saveDelta st x.1 x.2.1 x.2.2 now) s)
      u.1 u.2.1 u.2.2 now
      = compactDeltas { s with journal := some (([JournalLine.entry ⟨now, d0.1, d0.2.1, d0.2.2⟩]
          ++ rest.map (fun x => JournalLine.entry ⟨now, x.1, x.2.1, x.2.2⟩))
          ++ [JournalLine.entry ⟨now, u.1, u.2.1, u.2.2⟩]) } now := by
    rw [hfold]
    rw [saveDelta_compacts _ _ _ _ _ (by simp [hlen])]
    rfl
  have hnb : (([JournalLine.entry ⟨now, d0.1, d0.2.1, d0.2.2⟩]
      ++ rest.map (fun x => JournalLine.entry ⟨now, x.1, x.2.1, x.2.2⟩))
      ++ [JournalLine.entry ⟨now, u.1, u.2.1, u.2.2⟩]).any (· = .bad) = false := by
    simp
    rintro x a b c hm rfl
    simp
  obtain ⟨m, hm⟩ := compactDeltas_completes
    { s with journal := some (([JournalLine.entry ⟨now, d0.1, d0.2.1, d0.2.2⟩]
        ++ rest.map (fun x => JournalLine.entry ⟨now, x.1, x.2.1, x.2.2⟩))
        ++ [JournalLine.entry ⟨now, u.1, u.2.1, u.2.2⟩]) } now _ rfl (by simp) hnb
  rw [h50, hm]
  exact ⟨rfl, rfl⟩

/-! ## Claims -/

/-- C1 counterexample: on the empty store, compacting and then loading
yields a different snapshot than loading directly (the compaction bumps
`essential.sessionCount` from 0 to 1 and so changes the logical result). -/
theorem compact_load_not_conserved :
    loadPipeline (compactDeltas ⟨none, none, none, 0⟩ "T") "T"
      ≠ loadPipeline ⟨none, none, none, 0⟩ "T" := by decide

/-- C1 (amended): when no compressed snapshot shadows the plain one and
the directly-loaded result is validator-clean, compact-then-load returns
exactly the finalize of the direct load: the same snapshot except that
`lastUpdated` is restamped and `essential.sessionCount` is incremented by
one (the compaction session boundary). -/
theorem compaction_conservation_amended (s : FSState) (now : String)
    (hgz : s.gz = none) (hnow : now ≠ "")
    (hv : validationErrors ((applyDeltasToMetadata s.plain s.journal now).getD
        (createDefaultMetadata now)) = []) :
    finalizeMeta (loadPipeline s now) now
      = some (loadPipeline (compactDeltas s now) now) :=
  compact_then_load s now hgz hnow hv

/-- C1 witness: the amended statement holds on a concrete valid store. -/
theorem compaction_conservation_amended_witness :
    ((⟨some (createDefaultMetadata "T"), none, none, 0⟩ : FSState).gz = none)
    ∧ ("T" ≠ "")
    ∧ finalizeMeta (loadPipeline ⟨some (createDefaultMetadata "T"), none, none, 0⟩ "T") "T"
      = some (loadPipeline
          (compactDeltas ⟨some (createDefaultMetadata "T"), none, none, 0⟩ "T") "T") :=
  ⟨rfl, by decide,
    compaction_conservation_amended ⟨some (createDefaultMetadata "T"), none, none, 0⟩ "T"
      rfl (by decide) (by decide)⟩

/-- C2 counterexample: compacting a store whose plain snapshot file holds
the JSON document with no fields persists a snapshot that fails the
schema validator (no validation or repair runs before the write). -/
theorem compact_persists_invalid :
    (compactDeltas ⟨some (.obj []), none,
        some [.entry ⟨"T", "set", "a.b", .num 1⟩], 0⟩ "T").plain
      = some (.obj [("b", .num 1), ("lastUpdated", .str "T")])
    ∧ validationErrors (.obj [("b", .num 1), ("lastUpdated", .str "T")]) ≠ [] := by
  decide

/-- C2 (amended): compaction performs no validation step; the snapshot it
persists is validator-clean exactly when the folded base it writes out
already is — in particular whenever the journal folds the plain snapshot
(or the default, if absent) into a validator-clean document. -/
theorem compact_persisted_validity_amended (s : FSState) (now : String)
    (hnow : now ≠ "")
    (hv : validationErrors ((applyDeltasToMetadata s.plain s.journal now).getD
        (createDefaultMetadata now)) = []) :
    ∃ m, (compactDeltas s now).plain = some m ∧ validationErrors m = [] :=
  compact_persist_valid s now hnow hv

/-- C2 witness: the amended statement holds on a concrete valid store. -/
theorem compact_persisted_validity_amended_witness :
    ("T" ≠ "")
    ∧ ∃ m, (compactDeltas ⟨some (createDefaultMetadata "T"), none, none, 0⟩ "T").plain
        = some m ∧ validationErrors m = [] :=
  ⟨by decide,
    compact_persisted_validity_amended ⟨some (createDefaultMetadata "T"), none, none, 0⟩
      "T" (by decide) (by decide)⟩

/-- C3 counterexample: a journal consisting of one malformed line is
silently recovered: the fold returns the unfolded base snapshot with no
error, and the result is indistinguishable from the case where no journal
file exists at all. -/
theorem journal_corruption_silently_recovered :
    applyDeltasToMetadata (some (createDefaultMetadata "T"))
        (some [JournalLine.bad]) "T"
      = some (createDefaultMetadata "T")
    ∧ applyDeltasToMetadata (some (createDefaultMetadata "T"))
        (some [JournalLine.bad]) "T"
      = applyDeltasToMetadata (some (createDefaultMetadata "T")) none "T" := by
  decide

/-- C3 (amended): a malformed journal line aborts the whole fold, but the
error is caught inside `applyDeltasToMetadata`, which returns the base
exactly as if no journal existed: no error is surfaced to the caller and
the corrupt-journal case is indistinguishable from the missing-journal
case. -/
theorem journal_corruption_amended (b : Option JValue)
    (lines : List JournalLine) (now : String) (h : JournalLine.bad ∈ lines) :
    applyDeltasToMetadata b (some lines) now
      = applyDeltasToMetadata b none now := by
  rw [applyDeltas_bad_line b lines now h]
  rfl

/-- C3 witness: the amended statement at a concrete corrupt journal. -/
theorem journal_corruption_amended_witness :
    (JournalLine.bad ∈ [JournalLine.bad,
        JournalLine.entry ⟨"T", "set", "essential.stack", .str "x"⟩])
    ∧ applyDeltasToMetadata (some (createDefaultMetadata "T"))
        (some [JournalLine.bad,
          JournalLine.entry ⟨"T", "set", "essential.stack", .str "x"⟩]) "T"
      = applyDeltasToMetadata (some (createDefaultMetadata "T")) none "T" :=
  ⟨by decide,
    journal_corruption_amended (some (createDefaultMetadata "T"))
      [JournalLine.bad, JournalLine.entry ⟨"T", "set", "essential.stack", .str "x"⟩]
      "T" (by decide)⟩

/-- C4: evaluation at the failing input.  Starting from the empty store,
`update("essential.projects", "iron-tracker", add)` followed by
`update("essential.sessionCount", 1, add)` appends exactly two journal
lines, but the subsequent load returns a snapshot whose
`essential.projects` is still `[]` and whose `essential.sessionCount` is
still `0`: the path navigation skips the first segment without descending
into `essential`, so both deltas land on stray top-level keys.  The
claimed result (and the expectation of the test suite) is
`projects = ["iron-tracker"]`, `sessionCount = 1` inside `essential`. -/
theorem scenario_updates_lost :
    (saveDelta (saveDelta ⟨none, none, none, 0⟩ "add" "essential.projects"
        (.str "iron-tracker") "T") "add" "essential.sessionCount" (.num 1) "T").journal
      = some [JournalLine.entry ⟨"T", "add", "essential.projects", .str "iron-tracker"⟩,
              JournalLine.entry ⟨"T", "add", "essential.sessionCount", .num 1⟩]
    ∧ jsGet (loadPipeline (saveDelta (saveDelta ⟨none, none, none, 0⟩ "add"
        "essential.projects" (.str "iron-tracker") "T") "add"
        "essential.sessionCount" (.num 1) "T") "T") "essential"
      = some (.obj [("lastSession", .str "Unknown"),
          ("stack", .str "Node.js + npm + Vite + TypeScript + TanStack"),
          ("projects", .arr []), ("sessionCount", .num 0)])
    ∧ jsGet (loadPipeline (saveDelta (saveDelta ⟨none, none, none, 0⟩ "add"
        "essential.projects" (.str "iron-tracker") "T") "add"
        "essential.sessionCount" (.num 1) "T") "T") "projects"
      = some (.str "iron-tracker")
    ∧ jsGet (loadPipeline (saveDelta (saveDelta ⟨none, none, none, 0⟩ "add"
        "essential.projects" (.str "iron-tracker") "T") "add"
        "essential.sessionCount" (.num 1) "T") "T") "sessionCount"
      = some (.num 1) := by
  decide

/-- C5 counterexample: repair is not validity-restoring on every input.
A candidate with a truthy non-string `essential.lastSession` has that
value copied verbatim (the copy checks truthiness, not type), and the
repaired snapshot then fails the schema validator. -/
theorem repair_output_can_fail_validation :
    validationErrors (repairMetadata
      (.obj [("essential", .obj [("lastSession", .num 5)])]) "T") ≠ [] := by
  decide

/-- C5 (amended): repair is total by construction — it returns a snapshot
for every candidate, including null, empty objects and garbage — and its
output passes the validator with zero violations whenever every truthy
field it salvages (`version`, `lastUpdated`, `essential.lastSession`,
`essential.stack`) already has the schema type; it is not guaranteed to
pass for candidates carrying truthy ill-typed values in those fields. -/
theorem repair_total_and_valid_amended (c : JValue) (now : String) (h0 : now ≠ "")
    (h1 : ∀ v, jsGet c "version" = some v → v.jsTruthy = true → ∃ n : Int, v = .num n)
    (h2 : ∀ v, jsGet c "lastUpdated" = some v → v.jsTruthy = true → ∃ s, v = .str s)
    (h3 : ∀ e v, jsGet c "essential" = some e → jsGet e "lastSession" = some v →
      v.jsTruthy = true → ∃ s, v = .str s)
    (h4 : ∀ e v, jsGet c "essential" = some e → jsGet e "stack" = some v →
      v.jsTruthy = true → ∃ s, v = .str s) :
    validationErrors (repairMetadata c now) = [] :=
  repair_valid_of_salvageable c now h0 h1 h2 h3 h4

/-- C5 witness: repairing the null candidate yields a validator-clean
snapshot. -/
theorem repair_total_and_valid_amended_witness :
    ("T" ≠ "") ∧ validationErrors (repairMetadata JValue.null "T") = [] :=
  ⟨by decide,
    repair_total_and_valid_amended JValue.null "T" (by decide)
      (fun v h => nomatch h) (fun v h => nomatch h)
      (fun e v h => nomatch h) (fun e v h => nomatch h)⟩

/-- C6: evaluation at the failing input.  On the repository test fixture
`{version: "invalid", lastUpdated: null, essential: {lastSession:
"2026-01-17"}}`, repair copies the truthy string `"invalid"` into
`version` instead of overwriting it with the schema constant 3 that the
claim (and the test suite) requires; the claimed concrete scenario for
`{"essential": {"lastSession": "2026-01-01"}}` (falsy `version`) does
hold, which shows the overwrite only happens for falsy candidates. -/
theorem repair_keeps_truthy_version :
    jsGet (repairMetadata (.obj [("version", .str "invalid"), ("lastUpdated", .null),
        ("essential", .obj [("lastSession", .str "2026-01-17")])]) "T") "version"
      = some (.str "invalid")
    ∧ repairMetadata (.obj [("essential", .obj [("lastSession", .str "2026-01-01")])]) "T"
      = .obj [("version", .num 3), ("lastUpdated", .str "T"),
          ("essential", .obj [("lastSession", .str "2026-01-01"),
            ("stack", .str "Node.js + npm + Vite + TypeScript + TanStack"),
            ("projects", .arr []), ("sessionCount", .num 0)])] := by
  decide

/-- C7 counterexample: an unrecognized op is not a strict no-op.  With op
`"frobnicate"` and field `"essential.x.y"`, applying the delta to the
default snapshot creates a stray top-level `x: {}` object during path
navigation, so the returned snapshot differs from the input. -/
theorem unrecognized_op_mutates :
    applySingleDelta (createDefaultMetadata "T")
        ⟨"T", "frobnicate", "essential.x.y", .num 1⟩ "T"
      ≠ createDefaultMetadata "T" := by
  decide

/-- C7 (amended): the delta applier is a pure total function, but an
unrecognized op is a strict no-op only when no intermediate navigation
happens: for an object (or array) base and a field path of at most two
segments, any op outside set/add/remove returns the input unchanged.
With longer paths, navigation may create empty objects at missing
intermediate keys before the op is dispatched (and a falsy or non-object
base is always replaced by a fresh default first). -/
theorem unrecognized_op_noop_amended (base : JValue) (ts op field : String)
    (val : JValue) (now : String) (hb : base.isObjTruthy = true)
    (hop : op ≠ "set" ∧ op ≠ "add" ∧ op ≠ "remove")
    (hf : (splitOnDot field).length ≤ 2) :
    applySingleDelta base ⟨ts, op, field, val⟩ now = base :=
  applySingleDelta_unrecognized base ts op field val now hb hop hf

/-- C7 witness: the amended statement at a concrete two-segment field. -/
theorem unrecognized_op_noop_amended_witness :
    ((createDefaultMetadata "T").isObjTruthy = true)
    ∧ ("frobnicate" ≠ "set" ∧ "frobnicate" ≠ "add" ∧ "frobnicate" ≠ "remove")
    ∧ ((splitOnDot "essential.stack").length ≤ 2)
    ∧ applySingleDelta (createDefaultMetadata "T")
        ⟨"T", "frobnicate", "essential.stack", .num 1⟩ "T"
      = createDefaultMetadata "T" :=
  ⟨by decide, by decide, by decide,
    unrecognized_op_noop_amended (createDefaultMetadata "T") "T" "frobnicate"
      "essential.stack" (.num 1) "T" (by decide) (by decide) (by decide)⟩

/-- C8: repair is idempotent — for every candidate, including null, empty
objects and arbitrary garbage, repairing twice (at a fixed wall-clock
time) equals repairing once. -/
theorem repair_idempotent (x : JValue) (now : String) :
    repairMetadata (repairMetadata x now) now = repairMetadata x now :=
  repair_fixes_repair x now

/-- C9: the compaction threshold.  From an empty journal, 49 updates
append 49 records and never compact (the ghost compaction counter is
unchanged and the journal holds all 49 lines); the 50th update appends
and then triggers a compaction that completes before the call returns
(counter advanced by one, journal deleted). -/
theorem threshold_trigger (s : FSState) (now : String)
    (ds : List (String × String × JValue)) (u : String × String × JValue)
    (h0 : s.journal = none) (h49 : ds.length = 49) :
    (ds.foldl (fun st x => saveDelta st x.1 x.2.1 x.2.2 now) s).compactions
        = s.compactions
    ∧ (ds.foldl (fun st x => saveDelta st x.1 x.2.1 x.2.2 now) s).journal
        = some (ds.map (fun x => JournalLine.entry ⟨now, x.1, x.2.1, x.2.2⟩))
    ∧ (saveDelta (ds.foldl (fun st x => saveDelta st x.1 x.2.1 x.2.2 now) s)
        u.1 u.2.1 u.2.2 now).compactions = s.compactions + 1
    ∧ (saveDelta (ds.foldl (fun st x => saveDelta st x.1 x.2.1 x.2.2 now) s)
        u.1 u.2.1 u.2.2 now).journal = none :=
  threshold_behavior s now ds u h0 h49

/-- C9 witness: the threshold behavior on 49 concrete updates plus one. -/
theorem threshold_trigger_witness :
    ((⟨none, none, none, 0⟩ : FSState).journal = none)
    ∧ (List.replicate 49 (("set", "essential.lastSession", JValue.str "x")
        : String × String × JValue)).length = 49
    ∧ (saveDelta ((List.replicate 49 (("set", "essential.lastSession", JValue.str "x")
          : String × String × JValue)).foldl
          (fun st x => saveDelta st x.1 x.2.1 x.2.2 "T") ⟨none, none, none, 0⟩)
        "set" "essential.lastSession" (JValue.str "x") "T").compactions = 1
    ∧ (saveDelta ((List.replicate 49 (("set", "essential.lastSession", JValue.str "x")
          : String × String × JValue)).foldl
          (fun st x => saveDelta st x.1 x.2.1 x.2.2 "T") ⟨none, none, none, 0⟩)
        "set" "essential.lastSession" (JValue.str "x") "T").journal = none :=
  ⟨rfl, by decide,
    (threshold_trigger ⟨none, none, none, 0⟩ "T"
      (List.replicate 49 ("set", "essential.lastSession", JValue.str "x"))
      ("set", "essential.lastSession", JValue.str "x") rfl (by decide)).2.2.1,
    (threshold_trigger ⟨none, none, none, 0⟩ "T"
      (List.replicate 49 ("set", "essential.lastSession", JValue.str "x"))
      ("set", "essential.lastSession", JValue.str "x") rfl (by decide)).2.2.2⟩

/-- C10: fold atomicity on journal error.  For every base snapshot and
every journal content containing a line that fails to parse, the fold
returns the base snapshot exactly as passed in — no prefix of the deltas
is applied, and (the fold being a pure function on a deep copy) the
caller-visible base is never modified. -/
theorem fold_atomic_on_error (base : JValue) (lines : List JournalLine)
    (now : String) (h : JournalLine.bad ∈ lines) :
    applyDeltasToMetadata (some base) (some lines) now = some base :=
  applyDeltas_bad_line (some base) lines now h

/-- C10 witness: a journal whose second line is malformed returns the
base unchanged even though its first line is a well-formed delta. -/
theorem fold_atomic_on_error_witness :
    (JournalLine.bad ∈ [JournalLine.entry ⟨"T", "set", "essential.stack", .str "x"⟩,
        JournalLine.bad])
    ∧ applyDeltasToMetadata (some (createDefaultMetadata "T"))
        (some [JournalLine.entry ⟨"T", "set", "essential.stack", .str "x"⟩,
          JournalLine.bad]) "T"
      = some (createDefaultMetadata "T") :=
  ⟨by decide,
    fold_atomic_on_error (createDefaultMetadata "T")
      [JournalLine.entry ⟨"T", "set", "essential.stack", .str "x"⟩, JournalLine.bad]
      "T" (by decide)⟩
